import Mathlib

/-!
Verification development for the versioned scene-mutation engine of a
three.js LLM playground.  The definitions below are shallow embeddings of
the JavaScript source: the executor module (code extraction and sandboxed
execution), the scene module (view-state capture/restore, base-scene reset,
per-frame update driver) and the controller module (version tree of scene
states, replay-based revert, submit orchestration).

Scene content and view state are abstracted as type parameters `S` and `V`;
the dynamic evaluation performed by the JavaScript `Function` constructor is
abstracted as an explicit `run` parameter mapping a script and a scene
context to either a new context or a thrown error message paired with the
(partially mutated) context at the moment of the throw.
-/

/-! ### JavaScript string primitives -/

/-- The code points matched by the JavaScript `\s` regex class and trimmed by
`String.prototype.trim` (ASCII whitespace, NBSP, the Unicode space separators,
line/paragraph separators and the BOM). -/
def jsWsVals : List Nat :=
  [9, 10, 11, 12, 13, 32, 160, 5760,
   8192, 8193, 8194, 8195, 8196, 8197, 8198, 8199, 8200, 8201, 8202,
   8232, 8233, 8239, 8287, 12288, 65279]

/-- Whether a character is JavaScript whitespace. -/
def jsIsWs (c : Char) : Bool := jsWsVals.contains c.toNat

/-- Drop JavaScript whitespace from both ends of a character list. -/
def jsTrimList (cs : List Char) : List Char :=
  ((cs.dropWhile jsIsWs).reverse.dropWhile jsIsWs).reverse

/-- JavaScript `String.prototype.trim`. -/
def jsTrim (s : String) : String := String.mk (jsTrimList s.data)

/-! ### Code-fence scanner (executor module)

The executor extracts fenced code blocks with the global regex
`/AAA(?:javascript|js|threejs)?\s*([\s\S]*?)AAA/gi` (written here with `AAA`
for the triple backtick).  The scanner below reproduces the regex semantics:
find the first fence opener, optionally consume a (case-insensitive) language
tag, greedily consume whitespace, lazily capture up to the next fence, and
continue after it.  If an opener has no closing fence, no character at or
after the capture start is a backtick-free position for a later opener's
close, so matching stops. -/

/-- The backtick character. -/
def tickChar : Char := Char.ofNat 96

/-- Three backticks: the fence delimiter of the executor's regex. -/
def ticks3 : List Char := [tickChar, tickChar, tickChar]

/-- Whether `p` is an initial segment of `cs` (character-exact). -/
def leadsWith : List Char → List Char → Bool
  | [], _ => true
  | _ :: _, [] => false
  | p :: ps, c :: cs => p == c && leadsWith ps cs

/-- Whether `p` is an initial segment of `cs`, comparing case-insensitively
(the regex carries the `i` flag). -/
def leadsWithCI : List Char → List Char → Bool
  | [], _ => true
  | _ :: _, [] => false
  | p :: ps, c :: cs => p.toLower == c.toLower && leadsWithCI ps cs

/-- Split `cs` at the first occurrence of a triple backtick: returns the
characters before it and the characters after it, or `none` if there is no
triple backtick. -/
def splitAtTicks : List Char → Option (List Char × List Char)
  | [] => none
  | c :: cs =>
    if leadsWith ticks3 (c :: cs) then some ([], cs.drop 2)
    else
      match splitAtTicks cs with
      | none => none
      | some (pre, post) => some (c :: pre, post)

/-- Consume the optional language tag `(?:javascript|js|threejs)?` after an
opening fence, preferring alternatives in the regex's order. -/
def consumeTag (cs : List Char) : List Char :=
  if leadsWithCI ("javascript").data cs then cs.drop 10
  else if leadsWithCI ("js").data cs then cs.drop 2
  else if leadsWithCI ("threejs").data cs then cs.drop 7
  else cs

/-- Scan for all fenced-block captures, in order.  `fuel` bounds the number of
blocks; each found block consumes at least six characters, so
`length + 1` fuel is always enough. -/
def fenceLoop : Nat → List Char → List (List Char)
  | 0, _ => []
  | fuel + 1, cs =>
    match splitAtTicks cs with
    | none => []
    | some (_, afterOpen) =>
      let body := (consumeTag afterOpen).dropWhile jsIsWs
      match splitAtTicks body with
      | none => []
      | some (cap, rest) => cap :: fenceLoop fuel rest

/-- All capture groups of the executor's fence regex over `s`, in match
order (`[...text.matchAll(codeFencePattern)].map((m) => m[1])`). -/
def fenceCaptures (s : String) : List String :=
  (fenceLoop (s.data.length + 1) s.data).map String.mk

/-! ### Heuristic code detection (executor module) -/

/-- JavaScript word character (`\w` / `\b` boundaries): ASCII letters, digits
and underscore. -/
def isWordChar (c : Char) : Bool := c.isAlpha || c.isDigit || c.toNat == 95

/-- A `\b` boundary holds before a word if the preceding character (if any) is
not a word character. -/
def boundaryBefore : Option Char → Bool
  | none => true
  | some c => !isWordChar c

/-- Whether the word `w` occurs at the head of `cs` with a `\b` boundary after
it. -/
def wordAt (w : List Char) (cs : List Char) : Bool :=
  leadsWith w cs &&
    (match cs.drop w.length with
     | [] => true
     | c :: _ => !isWordChar c)

/-- Search for a `\b w \b` occurrence anywhere in the remaining characters,
tracking the previous character for the leading boundary. -/
def findWordGo (w : List Char) : Option Char → List Char → Bool
  | prev, [] => boundaryBefore prev && wordAt w []
  | prev, c :: rest =>
    (boundaryBefore prev && wordAt w (c :: rest)) || findWordGo w (some c) rest

/-- The executor's heuristic test `/\b(scene|THREE|camera|renderer)\b/.test(text)`. -/
def hasBindingWord (s : String) : Bool :=
  findWordGo ("scene").data none s.data || findWordGo ("THREE").data none s.data ||
    findWordGo ("camera").data none s.data || findWordGo ("renderer").data none s.data

/-- The executor's punctuation test `/[;(sc)(ob)(cb).=]/.test(text)` where the
class is semicolon, open brace, close brace, dot, equals (written by code
point to keep braces out of string literals). -/
def hasStatementPunct (s : String) : Bool :=
  s.data.any fun c =>
    c.toNat == 59 || c.toNat == 123 || c.toNat == 125 || c.toNat == 46 || c.toNat == 61

/-- `extractCode` from the executor module: trimmed non-empty fence captures
joined with a blank line; otherwise the raw trimmed text if it looks like
scene code (binding word + statement punctuation); otherwise `none`.  The
`typeof text !== "string"` guard is vacuous here since `text` is a string. -/
def extractCode (text : String) : Option String :=
  if jsTrim text = ("") then none
  else
    let ms := ((fenceCaptures text).map jsTrim).filter fun s => !(s == (""))
    if !ms.isEmpty then some (String.intercalate ("\x0a\x0a") ms)
    else if hasBindingWord text && hasStatementPunct text then some (jsTrim text)
    else none

/-! ### Errors raised by the controller and sandbox (`throw new Error(...)`) -/

/-- The error situations of the source, by the site that raises them:
`stateMissing i` — "State #i is missing from the stack." (walk reached an
index with no node); `invalidParent i` — "State #i has an invalid parent
pointer." (`parentIndex` not a number, or negative); `stateNotAvailable i` —
"State #i is not available." (revert target out of range); `emptyScript` —
"No executable code was provided."; `executionFailed msg` — the dynamically
evaluated script threw `msg`; `outOfFuel` marks a walk that the JavaScript
`while` loop would never exit (unreachable for well-formed stacks). -/
inductive JsError where
  | stateMissing (i : Nat)
  | invalidParent (i : Nat)
  | stateNotAvailable (i : Nat)
  | emptyScript
  | executionFailed (msg : String)
  | outOfFuel
deriving DecidableEq, Repr

/-! ### Scene context (scene module) -/

/-- The mutable scene context handed to scripts: the scene-graph content
(abstracted as `S`) and the camera/controls view state (abstracted as `V`). -/
structure SceneCtx (S V : Type) where
  content : S
  view : V
deriving DecidableEq, Repr

/-- `captureViewState` from the scene module: snapshot the current view
(the damping-flag juggling around the snapshot is internal to `V`). -/
def captureViewState {S V : Type} (ctx : SceneCtx S V) : V := ctx.view

/-- `restoreViewState` from the scene module: apply a stored view state
(every stored view state originates from `captureViewState`, so the
falsy-argument early return of the source is unreachable). -/
def restoreViewState {S V : Type} (v : V) (ctx : SceneCtx S V) : SceneCtx S V :=
  { ctx with view := v }

/-- `resetSceneToBase` from the scene module: remove and dispose every child
and rebuild the pristine base configuration; the view is not touched. -/
def resetSceneToBase {S V : Type} (base : S) (ctx : SceneCtx S V) : SceneCtx S V :=
  { ctx with content := base }

/-- The behavior of the dynamically constructed script function
(`new Function("scene", "THREE", "camera", "renderer", ...)` applied to
the context): either a new context, or a thrown message paired with the
partially mutated context at the moment of the throw. -/
def ScriptRun (S V : Type) : Type :=
  String → SceneCtx S V → Except (String × SceneCtx S V) (SceneCtx S V)

/-- `executeCode` from the executor module: reject scripts that are empty
after trimming, otherwise run the script against the context. -/
def executeCode {S V : Type} (run : ScriptRun S V) (code : String) (ctx : SceneCtx S V) :
    Except (JsError × SceneCtx S V) (SceneCtx S V) :=
  if jsTrim code = ("") then .error (.emptyScript, ctx)
  else
    match run code ctx with
    | .ok ctx2 => .ok ctx2
    | .error (msg, ctx2) => .error (.executionFailed msg, ctx2)

/-! ### Version tree (controller module, `sceneStateStack`) -/

/-- One entry of `sceneStateStack`: the script that produced the state
(`null` for the root), the index of the parent state (`null` for the root)
and the view state captured when the node was created.  The parent is kept
as an `Int` so that the source's defensive `parentIndex < 0` check is
representable. -/
structure StateNode (V : Type) where
  code : Option String
  parentIndex : Option Int
  viewState : V
deriving DecidableEq, Repr

/-- The loop body of `collectStateCodePath`: walk from `cursor` to the root
via parent pointers, prepending each non-empty trimmed script.  `fuel`
bounds the number of iterations; a run that exhausts it corresponds to a
`while` loop the JavaScript source would never exit. -/
def collectGo {V : Type} (stack : List (StateNode V)) :
    Nat → Nat → List String → Except JsError (List String)
  | 0, cursor, acc => if cursor = 0 then .ok acc else .error .outOfFuel
  | fuel + 1, cursor, acc =>
    if cursor = 0 then .ok acc
    else
      match stack[cursor]? with
      | none => .error (.stateMissing cursor)
      | some node =>
        let acc2 :=
          match node.code with
          | some c => if jsTrim c = ("") then acc else c :: acc
          | none => acc
        match node.parentIndex with
        | none => .error (.invalidParent cursor)
        | some p =>
          if p < 0 then .error (.invalidParent cursor)
          else collectGo stack fuel p.toNat acc2

/-- `collectStateCodePath` from the controller: the scripts on the path from
the root to `stateIndex`, oldest first.  A terminating JavaScript walk never
visits an in-range cursor twice, so `length + 1` fuel is exact. -/
def collectStateCodePath {V : Type} (stack : List (StateNode V)) (stateIndex : Nat) :
    Except JsError (List String) :=
  collectGo stack (stack.length + 1) stateIndex []

/-- The spec's `pathFrom`: the range guard of `restoreSceneToStateIndex`
followed by `collectStateCodePath`. -/
def pathFrom {V : Type} (stack : List (StateNode V)) (target : Nat) :
    Except JsError (List String) :=
  if target < stack.length then collectStateCodePath stack target
  else .error (.stateNotAvailable target)

/-- Replay a script path in order via the sandbox (`for (const code of
codePath) executeCode(code, sceneContext)`), stopping at the first throw. -/
def replay {S V : Type} (run : ScriptRun S V) :
    List String → SceneCtx S V → Except (JsError × SceneCtx S V) (SceneCtx S V)
  | [], ctx => .ok ctx
  | c :: cs, ctx =>
    match executeCode run c ctx with
    | .error e => .error e
    | .ok ctx2 => replay run cs ctx2

/-- `restoreSceneToStateIndex` from the controller: range-check the target,
compute the script path, reset the scene to its base configuration, replay
the path through the sandbox, then restore the target's stored view state.
Errors carry the context as left at the moment of the throw. -/
def restoreSceneToStateIndex {S V : Type} (run : ScriptRun S V) (base : S)
    (stack : List (StateNode V)) (stateIndex : Nat) (ctx : SceneCtx S V) :
    Except (JsError × SceneCtx S V) (SceneCtx S V) :=
  if h : stateIndex < stack.length then
    match collectStateCodePath stack stateIndex with
    | .error e => .error (e, ctx)
    | .ok codePath =>
      match replay run codePath (resetSceneToBase base ctx) with
      | .error e => .error e
      | .ok ctx2 => .ok (restoreViewState (stack.get ⟨stateIndex, h⟩).viewState ctx2)
  else .error (.stateNotAvailable stateIndex, ctx)

/-! ### Mutation controller (controller module) -/

/-- The controller state owned by the main module: the version tree, the
current-state cursor, the busy flag and the live scene context. -/
structure App (S V : Type) where
  stack : List (StateNode V)
  activeStateIndex : Nat
  isBusy : Bool
  ctx : SceneCtx S V
deriving DecidableEq, Repr

/-- The controller state at startup: a lone root node recording the pristine
scene's captured view state. -/
def initApp {S V : Type} (base : S) (v0 : V) : App S V :=
  { stack := [⟨none, none, v0⟩], activeStateIndex := 0, isBusy := false
    ctx := ⟨base, v0⟩ }

/-- Outcome of `revertToState`: refused while busy, reverted, or failed with
a surfaced error. -/
inductive RevertResult where
  | busyRefused
  | reverted (stateIndex : Nat)
  | failed (e : JsError)
deriving DecidableEq, Repr

/-- `revertToState` from the controller: refuse while busy; otherwise restore
the scene to the target state and move the cursor on success, or surface the
caught error leaving the cursor (and always the tree) unchanged. -/
def revertToState {S V : Type} (run : ScriptRun S V) (base : S) (stateIndex : Nat)
    (app : App S V) : App S V × RevertResult :=
  if app.isBusy then (app, .busyRefused)
  else
    match restoreSceneToStateIndex run base app.stack stateIndex app.ctx with
    | .ok ctx2 =>
      ({ app with ctx := ctx2, activeStateIndex := stateIndex }, .reverted stateIndex)
    | .error (e, ctx2) => ({ app with ctx := ctx2 }, .failed e)

/-- Outcome of `handleSubmit`'s mutation stage: silently ignored while busy,
no code extracted, a new state applied, or the execution error surfaced. -/
inductive SubmitResult where
  | busyIgnored
  | noCode
  | applied (stateIndex : Nat)
  | codeExecutionFailed (e : JsError)
deriving DecidableEq, Repr

/-- The mutation stage of `handleSubmit`, given the model's response text
(provider selection, screenshot capture and the network round trip are
external collaborators and do not touch the version tree).  While busy the
request returns at once.  Otherwise: extract code; if none, the tree is
untouched; if execution succeeds, push a node recording the script, the
previously active index as parent and the freshly captured view state, and
move the cursor to it; if execution throws, surface the error and leave the
tree and cursor unchanged.  The busy flag is set for the duration of the
round trip and cleared in `finally`, so it is unchanged here. -/
def handleSubmit {S V : Type} (run : ScriptRun S V) (responseText : String)
    (app : App S V) : App S V × SubmitResult :=
  if app.isBusy then (app, .busyIgnored)
  else
    match extractCode responseText with
    | none => (app, .noCode)
    | some code =>
      match executeCode run code app.ctx with
      | .ok ctx2 =>
        let node : StateNode V :=
          ⟨some code, some (app.activeStateIndex : Int), captureViewState ctx2⟩
        let stack2 := app.stack ++ [node]
        let stateIndex := stack2.length - 1
        ({ app with stack := stack2, activeStateIndex := stateIndex, ctx := ctx2 },
          .applied stateIndex)
      | .error (e, ctx2) => ({ app with ctx := ctx2 }, .codeExecutionFailed e)

/-! ### Frame update driver (scene module, `frame`)

Each rendered frame traverses the scene objects; an object may carry a
per-frame callback in its attachment bag (`userData.update`).  A callback is
abstracted as a value of type `U` together with an oracle `throws u t`
telling whether invoking `u` at frame `t` throws; the scene-graph mutations a
callback performs are outside the version tree and are not modelled. -/

/-- A scene object as seen by the frame driver: a name (used in the error
log) and the optional attached per-frame callback. -/
structure FrameObj (U : Type) where
  name : String
  update : Option U
deriving DecidableEq, Repr

/-- One object's treatment during a frame: objects without a callback are
skipped; a callback that throws is deleted from the attachment bag (the
`catch` branch), otherwise the object is left as is. -/
def stepObj {U : Type} (throws : U → Nat → Bool) (t : Nat) (o : FrameObj U) : FrameObj U :=
  match o.update with
  | none => o
  | some u => if throws u t then { o with update := none } else o

/-- The traversal of one frame at time `t` (the `scene.traverse` body of
`frame`). -/
def frameStep {U : Type} (throws : U → Nat → Bool) (t : Nat)
    (objs : List (FrameObj U)) : List (FrameObj U) :=
  objs.map (stepObj throws t)

/-- The objects after frames `0, 1, ..., n - 1` have run. -/
def runFrames {U : Type} (throws : U → Nat → Bool) :
    Nat → List (FrameObj U) → List (FrameObj U)
  | 0, objs => objs
  | n + 1, objs => frameStep throws n (runFrames throws n objs)

/-- The frames iterated on a single object. -/
def objIter {U : Type} (throws : U → Nat → Bool) : Nat → FrameObj U → FrameObj U
  | 0, o => o
  | n + 1, o => stepObj throws n (objIter throws n o)

/-- Whether the callback of the object at position `i` is invoked during
frame `n` (it is invoked exactly when still attached as the frame starts). -/
def invokedAt {U : Type} (throws : U → Nat → Bool) (objs : List (FrameObj U))
    (n : Nat) (i : Nat) : Bool :=
  match (runFrames throws n objs)[i]? with
  | some o => o.update.isSome
  | none => false

/-- The names logged by `console.error` during frame `t`: the objects whose
still-attached callback throws at `t`. -/
def loggedAt {U : Type} (throws : U → Nat → Bool) (objs : List (FrameObj U))
    (t : Nat) : List String :=
  ((runFrames throws t objs).filter fun o =>
    match o.update with
    | some u => throws u t
    | none => false).map fun o => o.name

/-! ### Spec-side path computation (for the refinement claim about `pathFrom`)

Modelled from the spec: "`pathFrom(targetId)`: walks from `targetId` up to
the root via `parentId` links, collecting non-empty scripts, then reverses to
oldest-first order.  Fails with `UnknownState` if `targetId` is out of range,
and `CorruptChain` if a visited node's `parentId` is missing/invalid." -/

/-- The spec's error taxonomy for the path computation. -/
inductive SpecErr where
  | unknownState
  | corruptChain
  | otherFault
deriving DecidableEq, Repr

/-- Classification of the source's errors into the spec's taxonomy:
an out-of-range target is `UnknownState`; a missing node or a missing or
negative parent pointer discovered during the walk is `CorruptChain`. -/
def errClass : JsError → SpecErr
  | .stateNotAvailable _ => .unknownState
  | .stateMissing _ => .corruptChain
  | .invalidParent _ => .corruptChain
  | _ => .otherFault

/-- Modelled from the spec: the walk from `cursor` to the root, collecting
the non-empty scripts in walk (newest-first) order; a visited node that is
missing, or whose parent pointer is missing or negative, is a corrupt
chain.  `fuel` bounds the walk exactly as for the source. -/
def walkSpec {V : Type} (stack : List (StateNode V)) :
    Nat → Nat → Except SpecErr (List String)
  | 0, _ => .error .otherFault
  | fuel + 1, cursor =>
    if cursor = 0 then .ok []
    else
      match stack[cursor]? with
      | none => .error .corruptChain
      | some node =>
        match node.parentIndex with
        | none => .error .corruptChain
        | some p =>
          if p < 0 then .error .corruptChain
          else
            match walkSpec stack fuel p.toNat with
            | .error e => .error e
            | .ok rest =>
              .ok ((match node.code with
                    | some c => if jsTrim c = ("") then [] else [c]
                    | none => []) ++ rest)

/-- Modelled from the spec: `pathFrom` fails with `UnknownState` out of
range, otherwise walks and reverses to oldest-first order. -/
def pathFromSpec {V : Type} (stack : List (StateNode V)) (target : Nat) :
    Except SpecErr (List String) :=
  if target < stack.length then
    (walkSpec stack (stack.length + 1) target).map List.reverse
  else .error .unknownState

/-! ### Structural invariants of the version tree -/

/-- Every present, non-negative parent pointer points strictly below its own
index (this is what makes the source's walk terminate). -/
def Descending {V : Type} (stack : List (StateNode V)) : Prop :=
  ∀ (i : Nat) (node : StateNode V) (p : Int),
    stack[i]? = some node → node.parentIndex = some p → 0 ≤ p → p.toNat < i

/-- The version-tree invariant: the root has no script and no parent, and
every other node has a non-empty trimmed script and a valid parent index
strictly smaller than its own index. -/
def WFStack {V : Type} (stack : List (StateNode V)) : Prop :=
  (∃ node, stack[0]? = some node ∧ node.code = none ∧ node.parentIndex = none) ∧
  ∀ i node, stack[i]? = some node → 0 < i →
    (∃ c, node.code = some c ∧ jsTrim c ≠ ("")) ∧
    ∃ p, node.parentIndex = some p ∧ 0 ≤ p ∧ p.toNat < i

/-- The controller invariant: a well-formed tree and an in-range cursor. -/
def WFApp {S V : Type} (app : App S V) : Prop :=
  WFStack app.stack ∧ app.activeStateIndex < app.stack.length

/-! ### Concrete instances used by the scenario and the witnesses -/

/-- A free model of scene content: the list of scripts executed since the
last reset. -/
abbrev DemoScene : Type := List String

/-- A script behavior that always succeeds and records the script. -/
def runLog : ScriptRun DemoScene Unit :=
  fun code ctx => .ok { ctx with content := ctx.content ++ [code] }

/-- A script behavior that always throws without mutating anything. -/
def runBoom : ScriptRun DemoScene Unit :=
  fun _ ctx => .error ("boom", ctx)

/-- Scenario script `A` (extracted verbatim by the heuristic branch). -/
def scriptA : String := "scene.a();"

/-- Scenario script `B`. -/
def scriptB : String := "scene.b();"

/-- Scenario script `C`. -/
def scriptC : String := "scene.c();"

/-- The startup controller state over the free scene model. -/
def demoApp : App DemoScene Unit := initApp ([]) ()

/-- The startup scene context over the free scene model. -/
def demoCtx : SceneCtx DemoScene Unit := ⟨[], ()⟩

/-- A concrete callback universe for the frame-driver witness: a callback is
a boolean telling whether it throws (at every frame). -/
def throwsB : Bool → Nat → Bool := fun u _ => u

/-- Two concrete scene objects: one whose callback always throws, one whose
callback never throws. -/
def demoObjs : List (FrameObj Bool) := [⟨"a", some true⟩, ⟨"b", some false⟩]

/-! ### Claims -/

/-- The scenario's first step: submit script `A` from the startup state. -/
def demoS1 : App DemoScene Unit × SubmitResult := handleSubmit runLog scriptA demoApp

/-- The scenario's second step: submit script `B`. -/
def demoS2 : App DemoScene Unit × SubmitResult := handleSubmit runLog scriptB demoS1.1

/-- The scenario's third step: revert to state 1. -/
def demoS3 : App DemoScene Unit × RevertResult := revertToState runLog ([]) 1 demoS2.1

/-- The scenario's fourth step: submit script `C` from the reverted state. -/
def demoS4 : App DemoScene Unit × SubmitResult := handleSubmit runLog scriptC demoS3.1

/-- C1: branching replay scenario.  From the base tree with only node 0 and
cursor 0: submitting script `A` appends node 1 with parent 0 and sets the
cursor to 1; submitting `B` appends node 2 with parent 1 and sets the cursor
to 2; `revert(1)` sets the cursor to 1 without removing any node and leaves
the scene equal to the replay of `[A]`; submitting `C` then appends node 3
with parent 1 (a sibling of node 2) and sets the cursor to 3; the script
path of node 3 is `[A, C]` (it never includes `B`) and node 2 remains a
valid revert target whose path is `[A, B]` and whose replay yields `[A, B]`. -/
theorem c1_branching_replay :
    demoS1.2 = SubmitResult.applied 1 ∧
    demoS1.1.activeStateIndex = 1 ∧
    demoS1.1.stack.map (fun n => n.parentIndex) = [none, some 0] ∧
    demoS2.2 = SubmitResult.applied 2 ∧
    demoS2.1.activeStateIndex = 2 ∧
    demoS3.2 = RevertResult.reverted 1 ∧
    demoS3.1.activeStateIndex = 1 ∧
    demoS3.1.stack = demoS2.1.stack ∧
    demoS3.1.stack.length = 3 ∧
    demoS3.1.ctx.content = [scriptA] ∧
    demoS4.2 = SubmitResult.applied 3 ∧
    demoS4.1.activeStateIndex = 3 ∧
    demoS4.1.stack.length = 4 ∧
    demoS4.1.stack.map (fun n => n.parentIndex) = [none, some 0, some 1, some 1] ∧
    demoS4.1.stack.map (fun n => n.code) =
      [none, some scriptA, some scriptB, some scriptC] ∧
    pathFrom demoS4.1.stack 3 = .ok [scriptA, scriptC] ∧
    pathFrom demoS4.1.stack 2 = .ok [scriptA, scriptB] ∧
    (revertToState runLog ([]) 2 demoS4.1).2 = RevertResult.reverted 2 ∧
    (revertToState runLog ([]) 2 demoS4.1).1.ctx.content = [scriptA, scriptB] :=
  ⟨rfl, rfl, rfl, rfl, rfl, rfl, rfl, rfl, rfl, rfl,
   rfl, rfl, rfl, rfl, rfl, rfl, rfl, rfl, rfl⟩

/-- C7: a submit or revert issued while the controller is busy is refused
without being queued (the busy branch is taken) and leaves the whole
controller state — in particular the version tree and the cursor —
unchanged. -/
theorem c7_busy_mutual_exclusion {S V : Type} (run : ScriptRun S V) (base : S)
    (responseText : String) (target : Nat) (app : App S V) (hb : app.isBusy = true) :
    handleSubmit run responseText app = (app, .busyIgnored) ∧
    revertToState run base target app = (app, .busyRefused) := by
  constructor
  · unfold handleSubmit; rw [hb]; simp
  · unfold revertToState; rw [hb]; simp

/-- Witness for C7 at a concrete busy controller state. -/
theorem c7_witness :
    handleSubmit runLog scriptA { demoApp with isBusy := true } =
      ({ demoApp with isBusy := true }, .busyIgnored) ∧
    revertToState runLog ([]) 0 { demoApp with isBusy := true } =
      ({ demoApp with isBusy := true }, .busyRefused) :=
  c7_busy_mutual_exclusion runLog ([]) scriptA 0 { demoApp with isBusy := true } rfl

/-- C6: atomicity on execution failure.  An empty or whitespace-only script
given to the sandbox fails with the empty-script error (touching nothing);
and whenever sandbox execution of the extracted script throws, `handleSubmit`
surfaces the execution error, appends no node, and leaves the version tree
and the cursor unchanged — only the scene context keeps whatever partial
mutations the script made before throwing. -/
theorem c6_submit_atomic_on_failure {S V : Type} (run : ScriptRun S V)
    (responseText code : String) (app : App S V) (e : JsError)
    (ctx ctx2 : SceneCtx S V) :
    (jsTrim code = ("") → executeCode run code ctx = .error (.emptyScript, ctx)) ∧
    (app.isBusy = false → extractCode responseText = some code →
      executeCode run code app.ctx = .error (e, ctx2) →
      handleSubmit run responseText app =
        ({ app with ctx := ctx2 }, .codeExecutionFailed e)) := by
  constructor
  · intro h; unfold executeCode; rw [if_pos h]
  · intro hb hx he
    simp only [handleSubmit, hb, hx, he, Bool.false_eq_true, if_false]

/-- Witness for C6: the sandbox rejects a whitespace-only script, and a
throwing script leaves the startup tree and cursor unchanged. -/
theorem c6_witness :
    executeCode runBoom ("  ") demoCtx = .error (.emptyScript, demoCtx) ∧
    handleSubmit runBoom scriptA demoApp =
      ({ demoApp with ctx := demoCtx }, .codeExecutionFailed (.executionFailed ("boom"))) :=
  ⟨(c6_submit_atomic_on_failure runBoom scriptA ("  ") demoApp
      (.executionFailed ("boom")) demoCtx demoCtx).1 rfl,
   (c6_submit_atomic_on_failure runBoom scriptA scriptA demoApp
      (.executionFailed ("boom")) demoCtx demoCtx).2 rfl rfl rfl⟩

/-- C10: revert cursor atomicity on failure.  A revert never modifies the
version tree (busy, successful or failed); and when the restore throws at
any point (target out of range, corrupt parent pointer, or a replayed script
throwing), the error is caught and surfaced as a failure result while the
cursor keeps its pre-revert value and the scene context is left as the
failed restore left it. -/
theorem c10_revert_failure_atomicity {S V : Type} (run : ScriptRun S V) (base : S)
    (target : Nat) (app : App S V) (e : JsError) (ctx2 : SceneCtx S V) :
    (revertToState run base target app).1.stack = app.stack ∧
    (app.isBusy = false →
      restoreSceneToStateIndex run base app.stack target app.ctx = .error (e, ctx2) →
      revertToState run base target app = ({ app with ctx := ctx2 }, .failed e)) := by
  constructor
  · unfold revertToState
    split
    · rfl
    · split <;> rfl
  · intro hb hr
    unfold revertToState
    rw [hb, hr]
    simp

/-- Witness for C10 at a concrete out-of-range revert target. -/
theorem c10_witness :
    (revertToState runLog ([]) 5 demoApp).1.stack = demoApp.stack ∧
    revertToState runLog ([]) 5 demoApp =
      ({ demoApp with ctx := demoCtx }, .failed (.stateNotAvailable 5)) :=
  ⟨(c10_revert_failure_atomicity runLog ([]) 5 demoApp (.stateNotAvailable 5) demoCtx).1,
   (c10_revert_failure_atomicity runLog ([]) 5 demoApp (.stateNotAvailable 5) demoCtx).2
     rfl rfl⟩

/-- C2: for every in-range target of a non-busy controller, revert is exactly
`reset to base`, then `replay the collected path, oldest first, via the
sandbox`, then (on success) `restore the ViewState stored at the target
node`; a throw during replay is surfaced with the context as the throw left
it. -/
theorem c2_revert_replays_in_order {S V : Type} (run : ScriptRun S V) (base : S)
    (target : Nat) (app : App S V) (path : List String)
    (hb : app.isBusy = false) (ht : target < app.stack.length)
    (hc : collectStateCodePath app.stack target = .ok path) :
    revertToState run base target app =
      match replay run path (resetSceneToBase base app.ctx) with
      | .ok ctx2 =>
        ({ app with
            ctx := restoreViewState (app.stack.get ⟨target, ht⟩).viewState ctx2,
            activeStateIndex := target }, .reverted target)
      | .error (e, ctx2) => ({ app with ctx := ctx2 }, .failed e) := by
  unfold revertToState restoreSceneToStateIndex
  rw [hb]
  simp only [Bool.false_eq_true, if_false, dif_pos ht, hc]
  cases hrep : replay run path (resetSceneToBase base app.ctx) with
  | ok ctx2 => simp
  | error ec => obtain ⟨e, ctx2⟩ := ec; simp

/-- Witness for C2: reverting the startup state to the root replays the empty
path and restores the root view state. -/
theorem c2_witness :
    revertToState runLog ([]) 0 demoApp = (demoApp, .reverted 0) :=
  c2_revert_replays_in_order runLog ([]) 0 demoApp [] rfl (by decide) rfl

/-! ### Invariant preservation (supporting lemmas) -/

/-- A script the sandbox ran successfully is non-empty after trimming. -/
theorem executeCode_ok_trim {S V : Type} {run : ScriptRun S V} {code : String}
    {ctx ctx2 : SceneCtx S V} (h : executeCode run code ctx = .ok ctx2) :
    jsTrim code ≠ ("") := by
  intro hc
  unfold executeCode at h
  rw [if_pos hc] at h
  exact absurd h (by simp)

/-- A successful restore implies the target was in range. -/
theorem restoreSceneToStateIndex_ok_lt {S V : Type} {run : ScriptRun S V} {base : S}
    {stack : List (StateNode V)} {i : Nat} {ctx ctx2 : SceneCtx S V}
    (h : restoreSceneToStateIndex run base stack i ctx = .ok ctx2) :
    i < stack.length := by
  by_contra hno
  unfold restoreSceneToStateIndex at h
  rw [dif_neg hno] at h
  exact absurd h (by simp)

/-- The invariant only looks at the tree and the cursor. -/
theorem WFApp_congr {S V : Type} {a b : App S V} (hs : a.stack = b.stack)
    (hi : a.activeStateIndex = b.activeStateIndex) (h : WFApp b) : WFApp a := by
  unfold WFApp at *
  rw [hs, hi]
  exact h

/-- The startup controller state satisfies the invariant. -/
theorem initApp_wf {S V : Type} (base : S) (v0 : V) : WFApp (initApp base v0) := by
  refine ⟨⟨⟨⟨none, none, v0⟩, rfl, rfl, rfl⟩, ?_⟩, by simp [initApp]⟩
  intro i node h hi
  match i, hi with
  | i + 1, _ => simp [initApp] at h

/-- Appending a node with a non-empty script and an in-range parent preserves
the tree invariant. -/
theorem WFStack_append {V : Type} {stack : List (StateNode V)} (h : WFStack stack)
    (c : String) (p : Nat) (v : V) (hc : jsTrim c ≠ ("")) (hp : p < stack.length) :
    WFStack (stack ++ [⟨some c, some (p : Int), v⟩]) := by
  obtain ⟨⟨n0, h0, hcode, hpar⟩, hall⟩ := h
  have hlen : 0 < stack.length := by
    cases stack with
    | nil => simp at h0
    | cons a l => simp
  constructor
  · exact ⟨n0, by rw [List.getElem?_append_left hlen]; exact h0, hcode, hpar⟩
  · intro i nd hget hi
    by_cases hilt : i < stack.length
    · rw [List.getElem?_append_left hilt] at hget
      exact hall i nd hget hi
    · have hge : stack.length ≤ i := le_of_not_lt hilt
      rw [List.getElem?_append_right hge] at hget
      have hzero : i - stack.length = 0 := by
        cases hd : i - stack.length with
        | zero => rfl
        | succ k => rw [hd] at hget; simp at hget
      rw [hzero] at hget
      simp only [List.getElem?_cons_zero, Option.some.injEq] at hget
      subst hget
      refine ⟨⟨c, rfl, hc⟩, ⟨(p : Int), rfl, by positivity, ?_⟩⟩
      have : p < i := lt_of_lt_of_le hp hge
      simpa using this

/-- C4: the version-tree invariant — node 0 has no script and no parent,
every other node has a valid parent strictly below its own index and a
non-empty trimmed script, ids are the monotone list indices — is preserved
by every submit and revert; moreover the store is append-only: a submit
either leaves the tree unchanged or appends exactly one node (whose parent
is the previously active index), and a revert never changes the tree. -/
theorem c4_version_tree_invariant {S V : Type} (run : ScriptRun S V)
    (responseText : String) (base : S) (target : Nat) (app : App S V)
    (h : WFApp app) :
    WFApp (handleSubmit run responseText app).1 ∧
    ((handleSubmit run responseText app).1.stack = app.stack ∨
      ∃ node, (handleSubmit run responseText app).1.stack = app.stack ++ [node] ∧
        node.parentIndex = some (app.activeStateIndex : Int) ∧
        ∃ c, node.code = some c ∧ jsTrim c ≠ ("")) ∧
    WFApp (revertToState run base target app).1 ∧
    (revertToState run base target app).1.stack = app.stack := by
  have hsub : WFApp (handleSubmit run responseText app).1 ∧
      ((handleSubmit run responseText app).1.stack = app.stack ∨
        ∃ node, (handleSubmit run responseText app).1.stack = app.stack ++ [node] ∧
          node.parentIndex = some (app.activeStateIndex : Int) ∧
          ∃ c, node.code = some c ∧ jsTrim c ≠ ("")) := by
    by_cases hb : app.isBusy = true
    · simp only [handleSubmit, hb, if_true]
      exact ⟨h, Or.inl (by simp)⟩
    · have hb2 : app.isBusy = false := by
        revert hb; cases app.isBusy <;> simp
      cases hx : extractCode responseText with
      | none =>
        simp only [handleSubmit, hb2, Bool.false_eq_true, if_false, hx]
        exact ⟨h, Or.inl (by simp)⟩
      | some code =>
        cases he : executeCode run code app.ctx with
        | error ec =>
          obtain ⟨e, ctx2⟩ := ec
          simp only [handleSubmit, hb2, Bool.false_eq_true, if_false, hx, he]
          exact ⟨WFApp_congr rfl rfl h, Or.inl (by simp)⟩
        | ok ctx2 =>
          have hc := executeCode_ok_trim he
          simp only [handleSubmit, hb2, Bool.false_eq_true, if_false, hx, he]
          constructor
          · constructor
            · exact WFStack_append h.1 code app.activeStateIndex
                (captureViewState ctx2) hc h.2
            · simp
          · exact Or.inr ⟨_, rfl, rfl, code, rfl, hc⟩
  refine ⟨hsub.1, hsub.2, ?_, ?_⟩
  · unfold revertToState
    by_cases hb : app.isBusy = true
    · rw [if_pos hb]; exact h
    · have hb2 : app.isBusy = false := by
        revert hb; cases app.isBusy <;> simp
      rw [hb2]
      simp only [Bool.false_eq_true, if_false]
      cases hr : restoreSceneToStateIndex run base app.stack target app.ctx with
      | ok ctx2 =>
        have hlt := restoreSceneToStateIndex_ok_lt hr
        exact ⟨h.1, hlt⟩
      | error ec =>
        obtain ⟨e, ctx2⟩ := ec
        exact WFApp_congr rfl rfl h
  · unfold revertToState
    split
    · rfl
    · split <;> rfl

/-- Witness for C4: one submit step from the startup state. -/
theorem c4_witness :
    WFApp (handleSubmit runLog scriptA demoApp).1 ∧
    ((handleSubmit runLog scriptA demoApp).1.stack = demoApp.stack ∨
      ∃ node, (handleSubmit runLog scriptA demoApp).1.stack = demoApp.stack ++ [node] ∧
        node.parentIndex = some ((demoApp.activeStateIndex : Nat) : Int) ∧
        ∃ c, node.code = some c ∧ jsTrim c ≠ ("")) ∧
    WFApp (revertToState runLog ([]) 0 demoApp).1 ∧
    (revertToState runLog ([]) 0 demoApp).1.stack = demoApp.stack :=
  c4_version_tree_invariant runLog scriptA ([]) 0 demoApp (initApp_wf ([]) ())

/-! ### The path computation meets the spec's description -/

/-- Under descending parent pointers (what the append-only invariant
guarantees, and what makes the source's `while` loop terminate), the
source's prepend-as-you-walk accumulator agrees, for any adequate fuel, with
the spec's collect-then-reverse walk — with the source's errors classified
into the spec's taxonomy. -/
theorem collectGo_agrees {V : Type} (stack : List (StateNode V))
    (hd : Descending stack) :
    ∀ cursor f1 f2 acc, cursor < f1 → cursor < f2 →
      Except.mapError errClass (collectGo stack f1 cursor acc) =
        (walkSpec stack f2 cursor).map (fun l => l.reverse ++ acc) := by
  intro cursor
  induction cursor using Nat.strong_induction_on with
  | _ cursor ih =>
    intro f1 f2 acc h1 h2
    match f1, f2 with
    | g1 + 1, g2 + 1 =>
      by_cases hc : cursor = 0
      · subst hc
        simp [collectGo, walkSpec, Except.mapError, Except.map]
      · simp only [collectGo, walkSpec, if_neg hc]
        cases hget : stack[cursor]? with
        | none => simp [Except.mapError, errClass, Except.map]
        | some node =>
          simp only []
          cases hpar : node.parentIndex with
          | none => simp [Except.mapError, errClass, Except.map]
          | some p =>
            by_cases hneg : p < 0
            · simp [hneg, Except.mapError, errClass, Except.map]
            · have hge : (0 : Int) ≤ p := le_of_not_lt hneg
              have hlt : p.toNat < cursor := hd cursor node p hget hpar hge
              simp only [if_neg hneg]
              rw [ih p.toNat hlt g1 g2 _ (by omega) (by omega)]
              cases walkSpec stack g2 p.toNat with
              | error e => simp [Except.map]
              | ok rest =>
                cases node.code with
                | none => simp [Except.map]
                | some c =>
                  by_cases hct : jsTrim c = ("")
                  · simp [hct, Except.map]
                  · simp [hct, Except.map]

/-- C3: for every target index over a store with descending parent pointers,
the source path computation equals the spec's: out-of-range targets fail as
`UnknownState`; otherwise the walk follows parent links from the target to
the root, collects exactly the scripts that are non-empty after trimming,
returns them reversed to oldest-first order, and classifies a visited node
whose parent pointer is missing or invalid as `CorruptChain`. -/
theorem c3_path_meets_spec {V : Type} (stack : List (StateNode V)) (target : Nat)
    (hd : Descending stack) :
    Except.mapError errClass (pathFrom stack target) = pathFromSpec stack target := by
  unfold pathFrom pathFromSpec
  by_cases h : target < stack.length
  · rw [if_pos h, if_pos h]
    unfold collectStateCodePath
    rw [collectGo_agrees stack hd target (stack.length + 1) (stack.length + 1) []
      (by omega) (by omega)]
    cases walkSpec stack (stack.length + 1) target with
    | error e => simp [Except.map]
    | ok l => simp [Except.map]
  · rw [if_neg h, if_neg h]
    simp [Except.mapError, errClass]

/-- Witness for C3 at the one-node startup store. -/
theorem c3_witness :
    Except.mapError errClass (pathFrom ([⟨none, none, ()⟩] : List (StateNode Unit)) 0) =
      pathFromSpec ([⟨none, none, ()⟩] : List (StateNode Unit)) 0 :=
  c3_path_meets_spec _ 0 (by
    intro i node p h hp hge
    cases i with
    | zero =>
      simp only [List.getElem?_cons_zero, Option.some.injEq] at h
      rw [← h] at hp
      simp at hp
    | succ n => simp at h)

/-! ### Frame-driver isolation (supporting lemmas) -/

/-- Frames act on each scene object independently of the others. -/
theorem runFrames_getElem {U : Type} (throws : U → Nat → Bool) (n : Nat)
    (objs : List (FrameObj U)) (i : Nat) :
    (runFrames throws n objs)[i]? = (objs[i]?).map (objIter throws n) := by
  induction n with
  | zero =>
    cases h : objs[i]? with
    | none => simp [runFrames, h]
    | some o => simp [runFrames, h, objIter]
  | succ n ih =>
    simp only [runFrames, frameStep, List.getElem?_map, ih]
    cases objs[i]? with
    | none => simp
    | some o => simp [objIter]

/-- An object whose callback has not thrown in frames `0..n-1` is untouched. -/
theorem objIter_no_throw {U : Type} (throws : U → Nat → Bool) (n : Nat)
    (o : FrameObj U) (u : U) (hu : o.update = some u)
    (h : ∀ s, s < n → throws u s = false) : objIter throws n o = o := by
  induction n with
  | zero => rfl
  | succ n ih =>
    have hrec := ih fun s hs => h s (by omega)
    simp [objIter, hrec, stepObj, hu, h n (by omega)]

/-- An object whose still-attached callback throws at frame `t` has its
callback deleted and keeps it deleted ever after. -/
theorem objIter_after_throw {U : Type} (throws : U → Nat → Bool) (t n : Nat)
    (o : FrameObj U) (u : U) (hu : o.update = some u)
    (hpre : ∀ s, s < t → throws u s = false) (ht : throws u t = true) (hn : t < n) :
    objIter throws n o = { o with update := none } := by
  induction n with
  | zero => omega
  | succ n ih =>
    by_cases hlt : t < n
    · have hrec := ih hlt
      simp [objIter, hrec, stepObj]
    · have heq : n = t := by omega
      subst heq
      rw [objIter, objIter_no_throw throws n o u hu hpre]
      simp [stepObj, hu, ht]

/-- C8: per-object isolation of the frame update driver.  If the callback of
the object at position `i` (still attached, having not thrown before) throws
at frame `t`, then its failure is logged under the object's name, the
callback is detached from frame `t` on permanently — the object's attachment
bag stays empty and its callback is never invoked again — while every object
whose callback never throws keeps its callback attached and invoked on every
single frame, the frame loop never halting. -/
theorem c8_frame_driver_isolation {U : Type} (throws : U → Nat → Bool)
    (objs : List (FrameObj U)) (i t : Nat) (o : FrameObj U) (u : U)
    (hi : objs[i]? = some o) (hu : o.update = some u)
    (hpre : ∀ s, s < t → throws u s = false) (ht : throws u t = true) :
    o.name ∈ loggedAt throws objs t ∧
    (∀ n, t < n → (runFrames throws n objs)[i]? = some { o with update := none }) ∧
    (∀ n, t < n → invokedAt throws objs n i = false) ∧
    (∀ j o2 u2, objs[j]? = some o2 → o2.update = some u2 →
      (∀ s, throws u2 s = false) →
      ∀ n, (runFrames throws n objs)[j]? = some o2 ∧
        invokedAt throws objs n j = true) := by
  have hstable : (runFrames throws t objs)[i]? = some o := by
    rw [runFrames_getElem, hi]
    simp [objIter_no_throw throws t o u hu hpre]
  have hafter : ∀ n, t < n →
      (runFrames throws n objs)[i]? = some { o with update := none } := by
    intro n hn
    rw [runFrames_getElem, hi]
    simp [objIter_after_throw throws t n o u hu hpre ht hn]
  refine ⟨?_, hafter, ?_, ?_⟩
  · unfold loggedAt
    have homem : o ∈ runFrames throws t objs := List.getElem?_mem hstable
    refine List.mem_map.mpr ⟨o, ?_, rfl⟩
    refine List.mem_filter.mpr ⟨homem, ?_⟩
    rw [hu]
    exact ht
  · intro n hn
    unfold invokedAt
    rw [hafter n hn]
    simp
  · intro j o2 u2 hj hu2 hnever n
    have hj2 : (runFrames throws n objs)[j]? = some o2 := by
      rw [runFrames_getElem, hj]
      simp [objIter_no_throw throws n o2 u2 hu2 fun s _ => hnever s]
    refine ⟨hj2, ?_⟩
    unfold invokedAt
    rw [hj2]
    simp [hu2]

/-- Witness for C8: object `a` throws at frame 0, is logged and detached
forever; object `b` keeps running. -/
theorem c8_witness :
    ("a" : String) ∈ loggedAt throwsB demoObjs 0 ∧
    (∀ n, 0 < n → (runFrames throwsB n demoObjs)[0]? =
      some (⟨"a", none⟩ : FrameObj Bool)) ∧
    (∀ n, 0 < n → invokedAt throwsB demoObjs n 0 = false) ∧
    (∀ j o2 u2, demoObjs[j]? = some o2 → o2.update = some u2 →
      (∀ s, throwsB u2 s = false) →
      ∀ n, (runFrames throwsB n demoObjs)[j]? = some o2 ∧
        invokedAt throwsB demoObjs n j = true) :=
  c8_frame_driver_isolation throwsB demoObjs 0 0 ⟨"a", some true⟩ true rfl rfl
    (fun s hs => absurd hs (Nat.not_lt_zero s)) rfl

/-! ### The extraction contract (supporting lemmas) -/

/-- A string that trims to empty consists of whitespace only. -/
theorem jsTrim_empty_all_ws {s : String} (h : jsTrim s = ("")) :
    ∀ c ∈ s.data, jsIsWs c = true := by
  intro c hc
  have hlist : jsTrimList s.data = [] := by
    have hd := congrArg String.data h
    simpa [jsTrim] using hd
  unfold jsTrimList at hlist
  rw [List.reverse_eq_nil_iff, List.dropWhile_eq_nil_iff] at hlist
  have hsplit : c ∈ s.data.takeWhile jsIsWs ++ s.data.dropWhile jsIsWs := by
    rw [List.takeWhile_append_dropWhile]
    exact hc
  rcases List.mem_append.mp hsplit with h1 | h2
  · exact List.mem_takeWhile_imp h1
  · exact hlist c (List.mem_reverse.mpr h2)

/-- Whitespace contains no backtick, so a whitespace-only text has no fence. -/
theorem splitAtTicks_none_of_ws {cs : List Char} (h : ∀ c ∈ cs, jsIsWs c = true) :
    splitAtTicks cs = none := by
  induction cs with
  | nil => rfl
  | cons c rest ih =>
    have hcw : jsIsWs c = true := h c (by simp)
    have hnt : (tickChar == c) = false := by
      cases hbe : tickChar == c
      · rfl
      · have hec : tickChar = c := eq_of_beq hbe
        rw [← hec] at hcw
        exact absurd hcw (by decide)
    have hlw : leadsWith ticks3 (c :: rest) = false := by
      simp [leadsWith, ticks3, hnt]
    rw [splitAtTicks, hlw]
    simp [ih fun x hx => h x (by simp [hx])]

/-- A text that trims to empty yields no fence captures. -/
theorem fenceCaptures_of_trim_empty {s : String} (h : jsTrim s = ("")) :
    fenceCaptures s = [] := by
  unfold fenceCaptures fenceLoop
  rw [splitAtTicks_none_of_ws (jsTrim_empty_all_ws h)]
  rfl

/-- A text containing a statement-terminator character does not trim to
empty. -/
theorem hasStatementPunct_trim_ne {s : String} (h : hasStatementPunct s = true) :
    jsTrim s ≠ ("") := by
  intro hempty
  obtain ⟨c, hc, hp⟩ := List.any_eq_true.mp h
  have hws := jsTrim_empty_all_ws hempty c hc
  have hvals : c.toNat = 59 ∨ c.toNat = 123 ∨ c.toNat = 125 ∨ c.toNat = 46 ∨ c.toNat = 61 := by
    have := hp
    simp at this
    tauto
  unfold jsIsWs at hws
  rcases hvals with h1 | h1 | h1 | h1 | h1 <;> rw [h1] at hws <;> exact absurd hws (by decide)

/-- C9 (amended contract): extraction returns the blank-line join of the
trimmed contents of the fenced blocks whose content is non-empty after
trimming, when at least one such block exists; otherwise — including when
every fence capture trims to empty — it returns the raw trimmed text exactly
when the text contains one of the four binding names as a `\b`-delimited
word together with a statement-terminator punctuation character, and `none`
otherwise. -/
theorem c9_extraction_contract (text : String) :
    extractCode text =
      (let ms := ((fenceCaptures text).map jsTrim).filter fun s => !(s == (""))
       if ms.isEmpty then
         if hasBindingWord text && hasStatementPunct text then some (jsTrim text)
         else none
       else some (String.intercalate ("\x0a\x0a") ms)) := by
  by_cases h : jsTrim text = ("")
  · have hfc : fenceCaptures text = [] := fenceCaptures_of_trim_empty h
    have hpunct : hasStatementPunct text = false := by
      cases hp : hasStatementPunct text
      · rfl
      · exact absurd h (hasStatementPunct_trim_ne hp)
    rw [extractCode, if_pos h, hfc]
    simp [hpunct]
  · simp only [extractCode, if_neg h]
    by_cases hms : (((fenceCaptures text).map jsTrim).filter fun s => !(s == (""))).isEmpty
    · simp [hms]
    · simp [hms]

/-- Counterexample to C9 as frozen: this response text contains one complete
fenced code block (its capture is empty), yet extraction returns neither the
concatenation of the blocks' contents (which would be the empty script) nor
`none` — it falls back to the heuristic and returns the raw trimmed text,
fence markers included. -/
theorem c9_counterexample :
    fenceCaptures ("``` ```\nscene;") = [("")] ∧
    extractCode ("``` ```\nscene;") = some ("``` ```\nscene;") ∧
    extractCode ("``` ```\nscene;") ≠ some ("") := by
  exact ⟨rfl, rfl, by decide⟩
